import Mathlib

/-!
Verification development for the akkadia language-server dispatch engine.

The definitions below are a shallow embedding of the Rust sources:

* `src/akkadia/src/actions/mod.rs` — `find_word_at_pos`, `ActionContext`;
* `src/akkadia/src/actions/requests.rs` — `Completion`, `ResolveCompletion`;
* `src/akkadia/src/actions/notifications.rs` — the notification actions;
* `src/akkadia/src/server/mod.rs` — `RawMessage`, `parse_message`,
  `parse_as_request`, `parse_as_notification`, `Request::dispatch`,
  `Notification::dispatch`, `dispatch_message`, `handle_message`, the
  run loop, `ShutdownRequest`, `ExitNotification`, `InitializeRequest`;
* `src/akkadia/src/lsp_data.rs` — `parse_file_path`.

External collaborators (the serde_json parser, the jsonrpc `Id` type, the
url crate, the LSP schema library, and the `Output` sink whose `io.rs`
implementation is not part of the sources) are modelled from the spec; each
such definition carries a comment saying so.  Machine integers (`usize`,
`u64`, `u32`) are modelled as `Nat` with explicit bounds where overflow can
matter.  A Rust `panic!`/`unwrap` failure is modelled explicitly (an
`Option` result, or the `Step.panicked` outcome), and `process::exit` is
the `Step.exited` outcome.
-/

namespace Akkadia

/-! ## Word-boundary locator (`actions/mod.rs`) -/

/-- Embedding of the closure `is_ident_char` in `find_word_at_pos`:
`c.is_alphanumeric() || c == '_'`.  Rust's `is_alphanumeric` is
Unicode-aware while `Char.isAlphanum` covers the ASCII subset; the range
computation below does not depend on which classifier is used. -/
def is_ident_char (c : Char) : Bool := c.isAlphanum || c == '_'

/-- Embedding of the `start` computation in `find_word_at_pos`:
`line.chars().enumerate().take(col).filter(|&(_, c)| !is_ident_char(c))
.last().map(|(i, _)| i + 1).unwrap_or(0)`. -/
def find_word_start (chars : List Char) (col : Nat) : Nat :=
  match ((chars.enum.take col).filter (fun ic => ! is_ident_char ic.2)).getLast? with
  | some ic => ic.1 + 1
  | none => 0

/-- Embedding of the `end` computation in `find_word_at_pos`:
`line.chars().enumerate().skip(col).filter(|&(_, c)| !is_ident_char(c))
.nth(0).map(|(i, _)| i).unwrap_or(col)`. -/
def find_word_end (chars : List Char) (col : Nat) : Nat :=
  match ((chars.enum.drop col).filter (fun ic => ! is_ident_char ic.2)).head? with
  | some ic => ic.1
  | none => col

/-- Embedding of `find_word_at_pos(line, pos)`.  Columns are character
counts (a `u32` in the source, lossless for any realistic line). -/
def find_word_at_pos (line : String) (pos : Nat) : Nat × Nat :=
  (find_word_start line.toList pos, find_word_end line.toList pos)

/-- Character of `line` at index `i` (a space — a non-identifier
character — when out of range); used only under explicit bounds. -/
def identAt (chars : List Char) (i : Nat) : Bool := is_ident_char (chars.getD i ' ')

/-! ## JSON values (model of the external serde_json `Value` type) -/

/-- Modelled from the spec: the generic JSON value type of the external
JSON library.  A number records its integer part and whether the wire
form was a float (a fraction or exponent was present, or the literal did
not fit the library's 64-bit integer range); floats never reach a typed
consumer in this engine, so their fractional value is not retained. -/
inductive Json where
  | null
  | bool (b : Bool)
  | num (n : Int) (isFloat : Bool)
  | str (s : String)
  | arr (elems : List Json)
  | obj (fields : List (String × Json))

/-- Last binding of `key` in an association list (the external library's
map semantics: a duplicate key overrides an earlier one). -/
def lookupField : List (String × Json) → String → Option Json
  | [], _ => none
  | (k, v) :: rest, key =>
    match lookupField rest key with
    | some r => some r
    | none => if k == key then some v else none

/-- Modelled from the spec: `Value::get(key)` — a field lookup that
returns nothing on a non-object value. -/
def Json.get? (j : Json) (key : String) : Option Json :=
  match j with
  | Json.obj fields => lookupField fields key
  | _ => none

/-! ## JSON text parser (model of the external `json::from_str`)

The engine treats text-level JSON parsing as an external collaborator;
the executable parser below models it closely enough for every shape the
engine inspects (objects, arrays, strings, integers, floats, literals).
Unicode escapes (`\uXXXX`) are not modelled.  The four delimiter
characters are named so that string literals in this file never contain
a raw quote, backslash or brace. -/

def quoteChar : Char := Char.ofNat 34

def backslashChar : Char := Char.ofNat 92

def lbraceChar : Char := Char.ofNat 123

def rbraceChar : Char := Char.ofNat 125

def isJsonWs (c : Char) : Bool :=
  c == ' ' || c == Char.ofNat 9 || c == Char.ofNat 10 || c == Char.ofNat 13

def skipWs : List Char → List Char
  | [] => []
  | c :: rest => if isJsonWs c then skipWs rest else c :: rest

/-- Body of a JSON string literal, after the opening quote. -/
def parseStringBody : List Char → List Char → Option (String × List Char)
  | [], _ => none
  | c :: rest, acc =>
    if c == quoteChar then some (String.mk acc.reverse, rest)
    else if c == backslashChar then
      match rest with
      | [] => none
      | e :: rest2 =>
        if e == quoteChar then parseStringBody rest2 (quoteChar :: acc)
        else if e == backslashChar then parseStringBody rest2 (backslashChar :: acc)
        else if e == '/' then parseStringBody rest2 ('/' :: acc)
        else if e == 'n' then parseStringBody rest2 (Char.ofNat 10 :: acc)
        else if e == 't' then parseStringBody rest2 (Char.ofNat 9 :: acc)
        else if e == 'r' then parseStringBody rest2 (Char.ofNat 13 :: acc)
        else none
    else parseStringBody rest (c :: acc)

def takeDigits : List Char → List Char × List Char
  | [] => ([], [])
  | c :: rest =>
    if c.isDigit then
      let (ds, r) := takeDigits rest
      (c :: ds, r)
    else ([], c :: rest)

def digitsToNat (ds : List Char) : Nat :=
  ds.foldl (fun acc c => acc * 10 + (c.toNat - 48)) 0

def u64Max : Nat := 18446744073709551615

def i64MinAbs : Nat := 9223372036854775808

/-- Exponent suffix of a number; its presence makes the number a float. -/
def parseExpTail (n : Int) (cs : List Char) : Option (Json × List Char) :=
  let cs1 := match cs with
    | '+' :: r => r
    | '-' :: r => r
    | _ => cs
  match takeDigits cs1 with
  | ([], _) => none
  | (_, rest) => some (Json.num n true, rest)

def parseExpOpt (n : Int) (isFloat : Bool) (cs : List Char) : Option (Json × List Char) :=
  match cs with
  | 'e' :: rest => parseExpTail n rest
  | 'E' :: rest => parseExpTail n rest
  | _ =>
    let f := isFloat || decide ((u64Max : Int) < n) || decide (n < - (i64MinAbs : Int))
    some (Json.num n f, cs)

def parseNumber (cs : List Char) : Option (Json × List Char) :=
  let (neg, cs1) := match cs with
    | '-' :: rest => (true, rest)
    | _ => (false, cs)
  match takeDigits cs1 with
  | ([], _) => none
  | (ds, rest) =>
    if 1 < ds.length && ds.headD '0' == '0' then none
    else
      let intPart : Int := if neg then - (digitsToNat ds : Int) else (digitsToNat ds : Int)
      match rest with
      | '.' :: rest2 =>
        match takeDigits rest2 with
        | ([], _) => none
        | (_, rest3) => parseExpOpt intPart true rest3
      | _ => parseExpOpt intPart false rest

mutual

def parseVal (fuel : Nat) (cs : List Char) : Option (Json × List Char) :=
  match fuel with
  | 0 => none
  | fuel' + 1 =>
    match skipWs cs with
    | [] => none
    | 'n' :: 'u' :: 'l' :: 'l' :: rest => some (Json.null, rest)
    | 't' :: 'r' :: 'u' :: 'e' :: rest => some (Json.bool true, rest)
    | 'f' :: 'a' :: 'l' :: 's' :: 'e' :: rest => some (Json.bool false, rest)
    | c :: rest =>
      if c == quoteChar then
        match parseStringBody rest [] with
        | some (s, r) => some (Json.str s, r)
        | none => none
      else if c == lbraceChar then
        match skipWs rest with
        | c2 :: r2 =>
          if c2 == rbraceChar then some (Json.obj [], r2)
          else
            match parseObjItems fuel' rest with
            | some (fs, r) => some (Json.obj fs, r)
            | none => none
        | [] => none
      else if c == '[' then
        match skipWs rest with
        | ']' :: r2 => some (Json.arr [], r2)
        | _ =>
          match parseArrItems fuel' rest with
          | some (xs, r) => some (Json.arr xs, r)
          | none => none
      else parseNumber (c :: rest)

def parseArrItems (fuel : Nat) (cs : List Char) : Option (List Json × List Char) :=
  match fuel with
  | 0 => none
  | fuel' + 1 =>
    match parseVal fuel' cs with
    | none => none
    | some (v, rest) =>
      match skipWs rest with
      | ',' :: r2 =>
        match parseArrItems fuel' r2 with
        | some (xs, r3) => some (v :: xs, r3)
        | none => none
      | ']' :: r2 => some ([v], r2)
      | _ => none

def parseObjItems (fuel : Nat) (cs : List Char) : Option (List (String × Json) × List Char) :=
  match fuel with
  | 0 => none
  | fuel' + 1 =>
    match skipWs cs with
    | c :: rest =>
      if c == quoteChar then
        match parseStringBody rest [] with
        | none => none
        | some (k, r1) =>
          match skipWs r1 with
          | ':' :: r2 =>
            match parseVal fuel' r2 with
            | none => none
            | some (v, r3) =>
              match skipWs r3 with
              | ',' :: r4 =>
                match parseObjItems fuel' r4 with
                | some (fs, r5) => some ((k, v) :: fs, r5)
                | none => none
              | c4 :: r4 =>
                if c4 == rbraceChar then some ([(k, v)], r4) else none
              | [] => none
          | _ => none
      else none
    | [] => none

end

/-- Modelled from the spec: `json::from_str` — parse one complete text
message as a generic JSON value, or fail. -/
def parseJson (s : String) : Option Json :=
  let cs := s.toList
  match parseVal (2 * cs.length + 2) cs with
  | some (v, rest) => if (skipWs rest).isEmpty then some v else none
  | none => none

/-! ## jsonrpc layer (model of the external jsonrpc crate) -/

/-- Modelled from the spec: the external jsonrpc `Id` — null, a 64-bit
unsigned integer, or a string. -/
inductive Id where
  | null
  | num (n : Nat)
  | str (s : String)
deriving DecidableEq

/-- Modelled from the spec: `json::from_value::<Id>` — deserialization of
a JSON value into an `Id`.  It accepts null, an integer in the unsigned
64-bit range, or a string; every other shape (array, object, bool, float,
negative or oversized integer) fails, which the caller turns into a
panic via `unwrap`. -/
def idFromJson : Json → Option Id
  | Json.null => some Id.null
  | Json.num n isFloat =>
    if isFloat then none
    else if 0 ≤ n ∧ n ≤ (u64Max : Int) then some (Id.num n.toNat) else none
  | Json.str s => some (Id.str s)
  | _ => none

/-- The two jsonrpc error kinds the engine constructs
(`jsonrpc::Error::parse_error()` and `jsonrpc::Error::invalid_request()`). -/
inductive JError where
  | parseError
  | invalidRequest
deriving DecidableEq

/-- Embedding of `RawMessage` (`server/mod.rs`). -/
structure RawMessage where
  method : String
  id : Option Id
  params : Json

/-- Outcome of `LsService::parse_message`.  `panicked` is the `unwrap`
on the id deserialization failing (the process aborts); `response` is the
`Ok(None)` case (a message without a `method` key, treated as a response
to a server-initiated request and discarded). -/
inductive ParseMessageResult where
  | panicked
  | err (e : JError)
  | response
  | msg (m : RawMessage)

/-- Embedding of `LsService::parse_message` (`server/mod.rs`): parse the
text as JSON (failure is `parse_error`); eagerly deserialize an `id`
field through `unwrap` (failure aborts); a missing `method` key means
the message is an unsolicited response; a non-string `method` is
`invalid_request`; `params` must be an object or an array, a missing or
null `params` is normalized to `Null`, and any other shape is
`invalid_request`. -/
def parse_message (s : String) : ParseMessageResult :=
  match parseJson s with
  | none => ParseMessageResult.err JError.parseError
  | some ls_command =>
    let idStep : Option (Option Id) :=
      match ls_command.get? "id" with
      | none => some none
      | some idJson =>
        match idFromJson idJson with
        | none => none
        | some i => some (some i)
    match idStep with
    | none => ParseMessageResult.panicked
    | some id =>
      match ls_command.get? "method" with
      | none => ParseMessageResult.response
      | some (Json.str method) =>
        match ls_command.get? "params" with
        | some (Json.obj fs) => ParseMessageResult.msg ⟨method, id, Json.obj fs⟩
        | some (Json.arr xs) => ParseMessageResult.msg ⟨method, id, Json.arr xs⟩
        | none => ParseMessageResult.msg ⟨method, id, Json.null⟩
        | some Json.null => ParseMessageResult.msg ⟨method, id, Json.null⟩
        | some _ => ParseMessageResult.err JError.invalidRequest
      | some _ => ParseMessageResult.err JError.invalidRequest

/-- Modelled from the spec: `usize::from_str_radix(s, 10)` — an optional
leading plus sign, then at least one decimal digit, rejecting any other
character and values beyond the unsigned 64-bit range (the build targets
a 64-bit `usize`). -/
def usize_from_str_radix_10 (s : String) : Option Nat :=
  let cs := s.toList
  let ds := match cs with
    | c :: rest => if c == '+' then rest else cs
    | [] => []
  if ds.isEmpty then none
  else if ds.all Char.isDigit then
    let n := digitsToNat ds
    if n ≤ u64Max then some n else none
  else none

/-! ## LSP data model (model of the external schema library and url crate) -/

/-- Modelled from the spec: a parsed URI, split into its scheme and the
remainder after the first colon. -/
structure Url where
  scheme : String
  rest : String
deriving DecidableEq

/-- Modelled from the spec: the external url parser, reduced to what the
engine inspects — a URI must have a nonempty scheme before a colon. -/
def parseUrl (s : String) : Option Url :=
  let cs := s.toList
  let pre := cs.takeWhile (fun c => c != ':')
  if pre.length == cs.length then none
  else if pre.isEmpty then none
  else some ⟨String.mk pre, String.mk (cs.drop (pre.length + 1))⟩

/-- Modelled from the spec: `Url::to_file_path`, reduced to stripping the
authority marker of a file URI. -/
def Url.toFilePath (u : Url) : Option String :=
  match u.rest.toList with
  | '/' :: '/' :: rest => some (String.mk rest)
  | _ => none

/-- Embedding of `UrlFileParseError` (`lsp_data.rs`). -/
inductive UrlFileParseError where
  | InvalidScheme
  | InvalidFilePath
deriving DecidableEq

/-- Embedding of `parse_file_path` (`lsp_data.rs`): only the `file`
scheme is accepted. -/
def parse_file_path (uri : Url) : Except UrlFileParseError String :=
  if uri.scheme ≠ "file" then Except.error UrlFileParseError.InvalidScheme
  else
    match uri.toFilePath with
    | some p => Except.ok p
    | none => Except.error UrlFileParseError.InvalidFilePath

/-- Zero-based text position (`lstypes::Position`); `line`/`character`
are `u64` in the schema, modelled as `Nat`. -/
structure Position where
  line : Nat
  character : Nat
deriving DecidableEq

/-- Text range (`lstypes::Range`); the source field `end` is a Lean
keyword and is called `stop` here. -/
structure Range where
  start : Position
  stop : Position
deriving DecidableEq

/-- Modelled from the spec: deserialization of a `Position`. -/
def positionFromJson (j : Json) : Option Position :=
  match j.get? "line", j.get? "character" with
  | some (Json.num l false), some (Json.num c false) =>
    if 0 ≤ l ∧ 0 ≤ c then some ⟨l.toNat, c.toNat⟩ else none
  | _, _ => none

/-- Modelled from the spec: deserialization of a `Range`. -/
def rangeFromJson (j : Json) : Option Range :=
  match j.get? "start", j.get? "end" with
  | some sj, some ej =>
    match positionFromJson sj, positionFromJson ej with
    | some s, some e => some ⟨s, e⟩
    | _, _ => none
  | _, _ => none

/-- `lstypes::TextDocumentIdentifier`. -/
structure TextDocumentIdentifier where
  uri : Url
deriving DecidableEq

/-- `lstypes::TextDocumentItem` (the fields the engine reads). -/
structure TextDocumentItem where
  uri : Url
  language_id : String
  version : Int
  text : String
deriving DecidableEq

/-- `lstypes::TextDocumentPositionParams`. -/
structure TextDocumentPositionParams where
  text_document : TextDocumentIdentifier
  position : Position
deriving DecidableEq

/-- `lstypes::CompletionItem` (the fields `new_simple` populates; the
schema's remaining optional fields stay empty throughout this engine). -/
structure CompletionItem where
  label : String
  detail : Option String
deriving DecidableEq

/-- Embedding of `CompletionItem::new_simple(label, detail)`. -/
def CompletionItem.new_simple (label : String) (detail : String) : CompletionItem :=
  ⟨label, some detail⟩

/-- Modelled from the spec: serde serialization of a completion item
(optional fields are omitted when absent). -/
def completionItemToJson (c : CompletionItem) : Json :=
  match c.detail with
  | some d => Json.obj [("label", Json.str c.label), ("detail", Json.str d)]
  | none => Json.obj [("label", Json.str c.label)]

/-- Modelled from the spec: serde deserialization of a completion item. -/
def completionItemFromJson (j : Json) : Option CompletionItem :=
  match j with
  | Json.obj _ =>
    match j.get? "label" with
    | some (Json.str l) =>
      match j.get? "detail" with
      | some (Json.str d) => some ⟨l, some d⟩
      | some Json.null => some ⟨l, none⟩
      | none => some ⟨l, none⟩
      | some _ => none
    | _ => none
  | _ => none

/-- Modelled from the spec: deserialization of a URI string field. -/
def urlFromJson (j : Json) : Option Url :=
  match j with
  | Json.str s => parseUrl s
  | _ => none

/-- `lstypes::InitializeParams` (the fields the handler reads:
`root_path` and `initialization_options`). -/
structure InitializeParams where
  root_path : Option String
  initialization_options : Option Json

/-- Modelled from the spec: serde deserialization of `InitializeParams` —
`rootPath` is an optional string, `initializationOptions` an optional
arbitrary value, and the schema's required `capabilities` object must be
present. -/
def initializeParamsFromJson (j : Json) : Option InitializeParams :=
  match j with
  | Json.obj _ =>
    let rp : Option (Option String) :=
      match j.get? "rootPath" with
      | none => some none
      | some Json.null => some none
      | some (Json.str s) => some (some s)
      | some _ => none
    match rp with
    | none => none
    | some rootPathVal =>
      match j.get? "capabilities" with
      | some (Json.obj _) =>
        let io := match j.get? "initializationOptions" with
          | some Json.null => none
          | x => x
        some ⟨rootPathVal, io⟩
      | _ => none
  | _ => none

/-- Embedding of `InitializationOptions` (`lsp_data.rs`). -/
structure InitializationOptions where
  omit_init_build : Bool
deriving DecidableEq

/-- Embedding of `InitializationOptions::default()`. -/
def InitializationOptions.default : InitializationOptions := ⟨false⟩

/-- Modelled from the spec: serde deserialization of
`InitializationOptions` — `serde(default)`, the single recognized key is
`omitInitBuild`, unknown keys are ignored. -/
def initializationOptionsFromJson (j : Json) : Option InitializationOptions :=
  match j with
  | Json.obj _ =>
    match j.get? "omitInitBuild" with
    | some (Json.bool b) => some ⟨b⟩
    | none => some ⟨false⟩
    | some _ => none
  | _ => none

/-- Modelled from the spec: serde deserialization of
`TextDocumentPositionParams`. -/
def textDocumentPositionParamsFromJson (j : Json) : Option TextDocumentPositionParams :=
  match j.get? "textDocument" with
  | some td =>
    match td.get? "uri" with
    | some uriJson =>
      match urlFromJson uriJson with
      | some url =>
        match j.get? "position" with
        | some posJson =>
          match positionFromJson posJson with
          | some pos => some ⟨⟨url⟩, pos⟩
          | none => none
        | none => none
      | none => none
    | _ => none
  | _ => none

/-- `lstypes::DidOpenTextDocumentParams`. -/
structure DidOpenTextDocumentParams where
  text_document : TextDocumentItem
deriving DecidableEq

/-- Modelled from the spec: serde deserialization of
`DidOpenTextDocumentParams`. -/
def didOpenParamsFromJson (j : Json) : Option DidOpenTextDocumentParams :=
  match j.get? "textDocument" with
  | some td =>
    match td.get? "uri", td.get? "languageId", td.get? "version", td.get? "text" with
    | some uriJson, some (Json.str lang), some (Json.num v false), some (Json.str text) =>
      match urlFromJson uriJson with
      | some url => some ⟨⟨url, lang, v, text⟩⟩
      | none => none
    | _, _, _, _ => none
  | _ => none

/-- `lstypes::TextDocumentContentChangeEvent`. -/
structure TextDocumentContentChangeEvent where
  range : Option Range
  range_length : Option Nat
  text : String
deriving DecidableEq

/-- `lstypes::VersionedTextDocumentIdentifier`. -/
structure VersionedTextDocumentIdentifier where
  uri : Url
  version : Option Int
deriving DecidableEq

/-- `lstypes::DidChangeTextDocumentParams`. -/
structure DidChangeTextDocumentParams where
  text_document : VersionedTextDocumentIdentifier
  content_changes : List TextDocumentContentChangeEvent
deriving DecidableEq

/-- Modelled from the spec: serde deserialization of one content-change
entry. -/
def contentChangeFromJson (j : Json) : Option TextDocumentContentChangeEvent :=
  match j.get? "text" with
  | some (Json.str t) =>
    let r : Option (Option Range) :=
      match j.get? "range" with
      | none => some none
      | some Json.null => some none
      | some rj =>
        match rangeFromJson rj with
        | some rg => some (some rg)
        | none => none
    match r with
    | none => none
    | some rng =>
      match j.get? "rangeLength" with
      | none => some ⟨rng, none, t⟩
      | some Json.null => some ⟨rng, none, t⟩
      | some (Json.num n false) => if 0 ≤ n then some ⟨rng, some n.toNat, t⟩ else none
      | some _ => none
  | _ => none

/-- Modelled from the spec: serde deserialization of
`DidChangeTextDocumentParams`. -/
def didChangeParamsFromJson (j : Json) : Option DidChangeTextDocumentParams :=
  match j.get? "textDocument" with
  | some td =>
    match td.get? "uri" with
    | some uriJson =>
      match urlFromJson uriJson with
      | some url =>
        let ver : Option (Option Int) :=
          match td.get? "version" with
          | none => some none
          | some Json.null => some none
          | some (Json.num v false) => some (some v)
          | some _ => none
        match ver with
        | none => none
        | some v =>
          match j.get? "contentChanges" with
          | some (Json.arr xs) =>
            match xs.mapM contentChangeFromJson with
            | some changes => some ⟨⟨url, v⟩, changes⟩
            | none => none
          | _ => none
      | none => none
    | _ => none
  | _ => none

/-- `lstypes::CancelParams` (`id` is a number or a string). -/
structure CancelParams where
  id : Id
deriving DecidableEq

/-- Modelled from the spec: serde deserialization of `CancelParams`. -/
def cancelParamsFromJson (j : Json) : Option CancelParams :=
  match j.get? "id" with
  | some (Json.num n false) =>
    if 0 ≤ n ∧ n ≤ (u64Max : Int) then some ⟨Id.num n.toNat⟩ else none
  | some (Json.str s) => some ⟨Id.str s⟩
  | _ => none

/-- `lstypes::DidSaveTextDocumentParams`. -/
structure DidSaveTextDocumentParams where
  text_document : TextDocumentIdentifier
deriving DecidableEq

/-- Modelled from the spec: serde deserialization of
`DidSaveTextDocumentParams`. -/
def didSaveParamsFromJson (j : Json) : Option DidSaveTextDocumentParams :=
  match j.get? "textDocument" with
  | some td =>
    match td.get? "uri" with
    | some uriJson =>
      match urlFromJson uriJson with
      | some url => some ⟨⟨url⟩⟩
      | none => none
    | _ => none
  | _ => none

/-- `lstypes::DidChangeWatchedFilesParams` (the file events themselves
are never read by the engine and stay generic). -/
structure DidChangeWatchedFilesParams where
  changes : List Json

/-- Modelled from the spec: serde deserialization of
`DidChangeWatchedFilesParams`. -/
def didChangeWatchedFilesParamsFromJson (j : Json) : Option DidChangeWatchedFilesParams :=
  match j.get? "changes" with
  | some (Json.arr xs) => some ⟨xs⟩
  | _ => none

/-! ## Server state and action context -/

/-- Embedding of `LsState` (`server/mod.rs`): the shutdown flag.  The
source uses an `AtomicBool` only to satisfy threading bounds; dispatch is
sequential, so a plain boolean is faithful. -/
structure LsState where
  shut_down : Bool
deriving DecidableEq

/-- Embedding of `ActionContext` (`actions/mod.rs`).  The shared VFS
handle held by both variants is an external collaborator and lives in
`ServerWorld`; the `Init` variant additionally holds the workspace root
(`current_project`). -/
inductive ActionContext where
  | uninit
  | init (current_project : String)
deriving DecidableEq

/-- Embedding of `ActionContext::init`: transition to `Init`, or panic —
modelled as `none` — when the context is already initialized
(`panic!("ActionContext already initialized")`). -/
def ctx_init : ActionContext → String → Option ActionContext
  | ActionContext.uninit, current_project => some (ActionContext.init current_project)
  | ActionContext.init _, _ => none

/-- Embedding of `ActionContext::inited`: the initialized context, or
panic — modelled as `none` — when still uninitialized
(`panic!("ActionContext not initialized")`). -/
def ctx_inited : ActionContext → Option String
  | ActionContext.uninit => none
  | ActionContext.init current_project => some current_project

/-- Edits submitted to the VFS by `DidChange` (`vfs::Change`). -/
inductive Change where
  | replaceText (file : String) (range : Range) (len : Option Nat) (text : String)
  | addFile (file : String) (text : String)
deriving DecidableEq

/-- Operations the handlers perform on the external VFS collaborator,
kept as a log (the VFS itself is out of scope). -/
inductive VfsOp where
  | setFile (path : String) (text : String)
  | onChanges (changes : List Change)
  | fileSaved (path : String)
deriving DecidableEq

/-- Modelled from the spec: one message emitted through the `Output`
sink (`io.rs` is not part of the sources) — a success reply
`jsonrpc/id/result` or an error reply `jsonrpc/id/error`. -/
inductive OutputMsg where
  | success (id : Nat) (result : Json)
  | failure (id : Id) (error : JError)

/-- The mutable world of one `LsService`: its `LsState`, its
`ActionContext`, the log of VFS operations, and the ordered list of
messages emitted through the output sink. -/
structure ServerWorld where
  state : LsState
  ctx : ActionContext
  vfs : List VfsOp
  out : List OutputMsg

/-- Outcome of running a piece of the engine: a value, a panic
(`unwrap`/`expect`/`panic!` — the process aborts), or `process::exit`.
Panic and exit keep the world reached so far, so theorems can speak
about output already emitted when the abort happens. -/
inductive Step (α : Type) where
  | panicked (w : ServerWorld)
  | exited (code : Nat) (w : ServerWorld)
  | ok (a : α) (w : ServerWorld)

/-- The world reached by a step, whatever its outcome. -/
def Step.world : Step α → ServerWorld
  | Step.panicked w => w
  | Step.exited _ w => w
  | Step.ok _ w => w

/-- Append one message to the output sink. -/
def emit (w : ServerWorld) (m : OutputMsg) : ServerWorld :=
  { w with out := w.out ++ [m] }

/-! ## Action descriptors and generic dispatch -/

/-- One request action (the Rust `RequestAction` impl): its wire method,
its params deserializer, whether its response type is zero-sized
(`size_of::<Response>() == 0` suppresses the reply in
`Request::dispatch`), its response serializer, and its handler. -/
structure RequestActionModel (π ρ : Type) where
  METHOD : String
  paramsFromJson : Json → Option π
  responseIsZeroSized : Bool
  responseToJson : ρ → Json
  handle : Nat → π → ServerWorld → Step (Except Unit ρ)

/-- One notification action (the Rust `NotificationAction` impl). -/
structure NotificationActionModel (π : Type) where
  METHOD : String
  paramsFromJson : Json → Option π
  handle : π → ServerWorld → Step (Except Unit Unit)

/-- Embedding of `RawMessage::parse_as_request`: compute the numeric id
(a `u64` id verbatim, a string id through `usize::from_str_radix`),
deserialize the params, and fail with `invalid_request` when either the
params or the id are unusable.  The id check happens after the params
deserialization, mirroring the source order of the two error exits. -/
def parse_as_request (A : RequestActionModel π ρ) (msg : RawMessage) :
    Except JError (Nat × π) :=
  let parsed_numeric_id : Option Nat :=
    match msg.id with
    | some (Id.num n) => some n
    | some (Id.str s) => usize_from_str_radix_10 s
    | _ => none
  match A.paramsFromJson msg.params with
  | none => Except.error JError.invalidRequest
  | some params =>
    match parsed_numeric_id with
    | some id => Except.ok (id, params)
    | none => Except.error JError.invalidRequest

/-- Embedding of `RawMessage::parse_as_notification`. -/
def parse_as_notification (A : NotificationActionModel π) (msg : RawMessage) :
    Except JError π :=
  match A.paramsFromJson msg.params with
  | none => Except.error JError.invalidRequest
  | some params => Except.ok params

/-- Embedding of `Request::dispatch`: run the handler; on success emit a
success reply with the original id — unless the response type is
zero-sized; a handler failure produces no reply at all. -/
def requestDispatch (A : RequestActionModel π ρ) (id : Nat) (params : π)
    (w : ServerWorld) : Step (Except Unit ρ) :=
  match A.handle id params w with
  | Step.panicked w => Step.panicked w
  | Step.exited c w => Step.exited c w
  | Step.ok (Except.error e) w => Step.ok (Except.error e) w
  | Step.ok (Except.ok r) w =>
    let w := if A.responseIsZeroSized then w
             else emit w (OutputMsg.success id (A.responseToJson r))
    Step.ok (Except.ok r) w

/-- Embedding of `Notification::dispatch`: run the handler; no reply is
ever emitted for a notification. -/
def notificationDispatch (A : NotificationActionModel π) (params : π)
    (w : ServerWorld) : Step (Except Unit Unit) :=
  A.handle params w

/-! ## Built-in lifecycle actions (`server/mod.rs`) -/

/-- Embedding of `ShutdownRequest`: `Params = NoParams` (its custom
`Deserialize` accepts anything), `Response = Ack` — a zero-sized unit
struct, so `Request::dispatch` suppresses the reply.  The handler stores
`true` into the shutdown flag and returns `Ok(Ack)`. -/
def ShutdownRequest : RequestActionModel Unit Unit where
  METHOD := "shutdown"
  paramsFromJson := fun _ => some ()
  responseIsZeroSized := true
  responseToJson := fun _ => Json.null
  handle := fun _id _params w =>
    Step.ok (Except.ok ()) { w with state := { shut_down := true } }

/-- Embedding of `ExitNotification`: reads the shutdown flag and calls
`process::exit(0)` when it is set, `process::exit(1)` otherwise. -/
def ExitNotification : NotificationActionModel Unit where
  METHOD := "exit"
  paramsFromJson := fun _ => some ()
  handle := fun _params w =>
    Step.exited (if w.state.shut_down then 0 else 1) w

/-- Embedding of `TextDocumentSyncKind` (the schema's enum; serialized
as 0/1/2). -/
inductive TextDocumentSyncKind where
  | NoSync
  | Full
  | Incremental
deriving DecidableEq

/-- Embedding of `CompletionOptions` as used by `InitializeRequest`. -/
structure CompletionOptions where
  resolve_provider : Option Bool
  trigger_characters : List String
deriving DecidableEq

/-- Embedding of `ServerCapabilities` (the fields `InitializeRequest`
sets; the schema's remaining fields keep their `None` defaults). -/
structure ServerCapabilities where
  text_document_sync : Option TextDocumentSyncKind
  completion_provider : Option CompletionOptions
deriving DecidableEq

/-- Embedding of `InitializeResult`. -/
structure InitializeResult where
  capabilities : ServerCapabilities
deriving DecidableEq

/-- The capabilities value built inside `InitializeRequest::handle`:
incremental text sync, completion with `resolve_provider = Some(true)`
and trigger characters `.` and `:`. -/
def initializeResultValue : InitializeResult :=
  { capabilities :=
    { text_document_sync := some TextDocumentSyncKind.Incremental
      completion_provider := some
        { resolve_provider := some true
          trigger_characters := [".", ":"] } } }

/-- Modelled from the spec: serde serialization of `InitializeResult`
(`textDocumentSync: Incremental` is wire value 2; `None` fields are
omitted). -/
def initializeResultToJson (r : InitializeResult) : Json :=
  let syncFields : List (String × Json) :=
    match r.capabilities.text_document_sync with
    | some TextDocumentSyncKind.NoSync => [("textDocumentSync", Json.num 0 false)]
    | some TextDocumentSyncKind.Full => [("textDocumentSync", Json.num 1 false)]
    | some TextDocumentSyncKind.Incremental => [("textDocumentSync", Json.num 2 false)]
    | none => []
  let compFields : List (String × Json) :=
    match r.capabilities.completion_provider with
    | some co =>
      let rp : List (String × Json) :=
        match co.resolve_provider with
        | some b => [("resolveProvider", Json.bool b)]
        | none => []
      [("completionProvider", Json.obj
        (rp ++ [("triggerCharacters", Json.arr (co.trigger_characters.map Json.str))]))]
    | none => []
  Json.obj [("capabilities", Json.obj (syncFields ++ compFields))]

/-- Embedding of `InitializeRequest::handle`: parse the initialization
options (any failure falls back to the default), emit the success reply
carrying the capabilities, then read the root path
(`.expect("No root path")` — a panic when absent) and transition the
context (`ctx.init` — a panic when already initialized).  `Response`
is `()`, zero-sized, so `Request::dispatch` adds no further reply. -/
def InitializeRequest : RequestActionModel InitializeParams Unit where
  METHOD := "initialize"
  paramsFromJson := initializeParamsFromJson
  responseIsZeroSized := true
  responseToJson := fun _ => Json.null
  handle := fun id params w =>
    let _init_options : InitializationOptions :=
      (params.initialization_options.bind
        (fun o => initializationOptionsFromJson o)).getD InitializationOptions.default
    let w := emit w (OutputMsg.success id (initializeResultToJson initializeResultValue))
    match params.root_path with
    | none => Step.panicked w
    | some root_path =>
      match ctx_init w.ctx root_path with
      | none => Step.panicked w
      | some ctx2 => Step.ok (Except.ok ()) { w with ctx := ctx2 }

/-! ## Request actions (`actions/requests.rs`) -/

/-- Embedding of `Completion::handle`: requires an initialized context
(panic otherwise), resolves the URI to a file path (a non-`file` scheme
makes the handler return `Err(())`), and returns the canned
single-element completion list. -/
def Completion : RequestActionModel TextDocumentPositionParams (List CompletionItem) where
  METHOD := "textDocument/completion"
  paramsFromJson := textDocumentPositionParamsFromJson
  responseIsZeroSized := false
  responseToJson := fun items => Json.arr (items.map completionItemToJson)
  handle := fun _id params w =>
    match ctx_inited w.ctx with
    | none => Step.panicked w
    | some _ctx =>
      match parse_file_path params.text_document.uri with
      | Except.error _ => Step.ok (Except.error ()) w
      | Except.ok _file_path =>
        Step.ok (Except.ok
          [CompletionItem.new_simple "completion" "test completion"]) w

/-- Embedding of `ResolveCompletion::handle`: `Ok(vec![params])` — the
response wraps the input item in a one-element vector. -/
def ResolveCompletion : RequestActionModel CompletionItem (List CompletionItem) where
  METHOD := "completionItem/resolve"
  paramsFromJson := completionItemFromJson
  responseIsZeroSized := false
  responseToJson := fun items => Json.arr (items.map completionItemToJson)
  handle := fun _id params w => Step.ok (Except.ok [params]) w

/-! ## Notification actions (`actions/notifications.rs`) -/

/-- Embedding of `Initialized`: a no-op that always succeeds. -/
def Initialized : NotificationActionModel Unit where
  METHOD := "initialized"
  paramsFromJson := fun _ => some ()
  handle := fun _params w => Step.ok (Except.ok ()) w

/-- Embedding of `DidOpen::handle`: requires an initialized context
(panic otherwise); a non-`file` URI returns `Err(())`; otherwise the
full text is installed into the VFS. -/
def DidOpen : NotificationActionModel DidOpenTextDocumentParams where
  METHOD := "textDocument/didOpen"
  paramsFromJson := didOpenParamsFromJson
  handle := fun params w =>
    match ctx_inited w.ctx with
    | none => Step.panicked w
    | some _ =>
      match parse_file_path params.text_document.uri with
      | Except.error _ => Step.ok (Except.error ()) w
      | Except.ok file_path =>
        Step.ok (Except.ok ())
          { w with vfs := w.vfs ++ [VfsOp.setFile file_path params.text_document.text] }

/-- Embedding of `DidChange::handle`: requires an initialized context;
a non-`file` URI returns `Err(())`; each content change becomes a
`ReplaceText` edit when a range is present and a whole-file `AddFile`
otherwise, and the batch is committed atomically (the VFS is external
and assumed to accept the batch; a VFS failure would be a panic via
`.expect("error committing to VFS")`). -/
def DidChange : NotificationActionModel DidChangeTextDocumentParams where
  METHOD := "textDocument/didChange"
  paramsFromJson := didChangeParamsFromJson
  handle := fun params w =>
    match ctx_inited w.ctx with
    | none => Step.panicked w
    | some _ =>
      match parse_file_path params.text_document.uri with
      | Except.error _ => Step.ok (Except.error ()) w
      | Except.ok file_path =>
        let changes := params.content_changes.map (fun i =>
          match i.range with
          | some range => Change.replaceText file_path range i.range_length i.text
          | none => Change.addFile file_path i.text)
        Step.ok (Except.ok ()) { w with vfs := w.vfs ++ [VfsOp.onChanges changes] }

/-- Embedding of `Cancel`: accepted and intentionally a no-op. -/
def Cancel : NotificationActionModel CancelParams where
  METHOD := "$/cancelRequest"
  paramsFromJson := cancelParamsFromJson
  handle := fun _params w => Step.ok (Except.ok ()) w

/-- Embedding of `DidSave::handle`: requires an initialized context; a
non-`file` URI returns `Err(())`; otherwise the file is marked saved in
the VFS (whose failure would be a panic via `unwrap`; the external VFS
is assumed to accept it). -/
def DidSave : NotificationActionModel DidSaveTextDocumentParams where
  METHOD := "textDocument/didSave"
  paramsFromJson := didSaveParamsFromJson
  handle := fun params w =>
    match ctx_inited w.ctx with
    | none => Step.panicked w
    | some _ =>
      match parse_file_path params.text_document.uri with
      | Except.error _ => Step.ok (Except.error ()) w
      | Except.ok file_path =>
        Step.ok (Except.ok ()) { w with vfs := w.vfs ++ [VfsOp.fileSaved file_path] }

/-- Embedding of `DidChangeWatchedFiles`: accepted and a no-op. -/
def DidChangeWatchedFiles : NotificationActionModel DidChangeWatchedFilesParams where
  METHOD := "workspace/didChangeWatchedFiles"
  paramsFromJson := didChangeWatchedFilesParamsFromJson
  handle := fun _params w => Step.ok (Except.ok ()) w

/-! ## Dispatch loop (`server/mod.rs`) -/

/-- One arm of the `match_action!` expansion for a notification: parse
the params (an error propagates as the `?` in the source), dispatch, and
swallow a handler failure (it is only logged). -/
def dispatchNotificationIn (A : NotificationActionModel π) (msg : RawMessage)
    (w : ServerWorld) : Step (Except JError Unit) :=
  match parse_as_notification A msg with
  | Except.error e => Step.ok (Except.error e) w
  | Except.ok params =>
    match notificationDispatch A params w with
    | Step.panicked w => Step.panicked w
    | Step.exited c w => Step.exited c w
    | Step.ok _ w => Step.ok (Except.ok ()) w

/-- One arm of the `match_action!` expansion for a request: parse id and
params (an error propagates), dispatch, and swallow a handler failure. -/
def dispatchRequestIn (A : RequestActionModel π ρ) (msg : RawMessage)
    (w : ServerWorld) : Step (Except JError Unit) :=
  match parse_as_request A msg with
  | Except.error e => Step.ok (Except.error e) w
  | Except.ok (id, params) =>
    match requestDispatch A id params w with
    | Step.panicked w => Step.panicked w
    | Step.exited c w => Step.exited c w
    | Step.ok _ w => Step.ok (Except.ok ()) w

/-- Embedding of `LsService::dispatch_message` — the `match_action!`
expansion over the registered actions; method names are unique, so the
source's sequence of independent `if`s is equivalent to this chain.  An
unmatched method is only logged. -/
def dispatch_message (msg : RawMessage) (w : ServerWorld) : Step (Except JError Unit) :=
  if msg.method == ExitNotification.METHOD then dispatchNotificationIn ExitNotification msg w
  else if msg.method == Initialized.METHOD then dispatchNotificationIn Initialized msg w
  else if msg.method == DidOpen.METHOD then dispatchNotificationIn DidOpen msg w
  else if msg.method == DidChange.METHOD then dispatchNotificationIn DidChange msg w
  else if msg.method == Cancel.METHOD then dispatchNotificationIn Cancel msg w
  else if msg.method == DidSave.METHOD then dispatchNotificationIn DidSave msg w
  else if msg.method == DidChangeWatchedFiles.METHOD then
    dispatchNotificationIn DidChangeWatchedFiles msg w
  else if msg.method == ShutdownRequest.METHOD then dispatchRequestIn ShutdownRequest msg w
  else if msg.method == InitializeRequest.METHOD then dispatchRequestIn InitializeRequest msg w
  else if msg.method == Completion.METHOD then dispatchRequestIn Completion msg w
  else if msg.method == ResolveCompletion.METHOD then dispatchRequestIn ResolveCompletion msg w
  else Step.ok (Except.ok ()) w

/-- Embedding of `ServerStateChange`. -/
inductive ServerStateChange where
  | Continue
  | Break
deriving DecidableEq

/-- Embedding of `LsService::handle_message`.  `input` is the message
reader's result (`none` is end-of-stream: a parse-error reply with a
null id, then break).  When the shutdown flag is set, any raw text other
than the literal string `exit` — the comparison is against the raw
message text, not the parsed method — is dropped.  A `parse_message`
error always produces a parse-error reply with a null id and breaks; a
dispatch error produces a reply carrying the dispatch error and the
message's raw id (null when absent) and breaks. -/
def handle_message (input : Option String) (w : ServerWorld) : Step ServerStateChange :=
  match input with
  | none =>
    Step.ok ServerStateChange.Break (emit w (OutputMsg.failure Id.null JError.parseError))
  | some msg_string =>
    if w.state.shut_down && msg_string != ExitNotification.METHOD then
      Step.ok ServerStateChange.Continue w
    else
      match parse_message msg_string with
      | ParseMessageResult.panicked => Step.panicked w
      | ParseMessageResult.err _ =>
        Step.ok ServerStateChange.Break (emit w (OutputMsg.failure Id.null JError.parseError))
      | ParseMessageResult.response => Step.ok ServerStateChange.Continue w
      | ParseMessageResult.msg rm =>
        match dispatch_message rm w with
        | Step.panicked w => Step.panicked w
        | Step.exited c w => Step.exited c w
        | Step.ok (Except.error e) w =>
          Step.ok ServerStateChange.Break (emit w (OutputMsg.failure (rm.id.getD Id.null) e))
        | Step.ok (Except.ok _) w => Step.ok ServerStateChange.Continue w

/-- Outcome of the `run` loop. -/
inductive RunResult where
  | finished (w : ServerWorld)
  | panicked (w : ServerWorld)
  | exited (code : Nat) (w : ServerWorld)

/-- Embedding of `LsService::run` over a finite input queue (the test
harness's `MockMsgReader`: one string per call, end-of-stream after the
last): `while self.handle_message() == Continue`. -/
def run (msgs : List String) (w : ServerWorld) : RunResult :=
  match msgs with
  | [] =>
    match handle_message none w with
    | Step.ok ServerStateChange.Continue w => RunResult.finished w
    | Step.ok ServerStateChange.Break w => RunResult.finished w
    | Step.panicked w => RunResult.panicked w
    | Step.exited c w => RunResult.exited c w
  | m :: rest =>
    match handle_message (some m) w with
    | Step.ok ServerStateChange.Continue w => run rest w
    | Step.ok ServerStateChange.Break w => RunResult.finished w
    | Step.panicked w => RunResult.panicked w
    | Step.exited c w => RunResult.exited c w

/-! ## Specification predicate for the word-boundary claim

`SpecWordRange` is written from the specification's words (not from the
source): the returned half-open range must consist of identifier
characters, be maximal on both sides, and contain or abut the cursor. -/

/-- The requirement the specification places on `find_word_at_pos`: the
half-open character range `[s, e)` of the maximal contiguous run of
identifier characters that contains or abuts the cursor (empty — with
`s = e = col` forced by `s ≤ col ≤ e` — when the cursor touches no
identifier character). -/
def SpecWordRange (chars : List Char) (col : Nat) (s e : Nat) : Prop :=
  s ≤ col ∧ col ≤ e ∧ e ≤ chars.length ∧
  (∀ i, i < e → s ≤ i → identAt chars i = true) ∧
  (s = 0 ∨ identAt chars (s - 1) = false) ∧
  (e = chars.length ∨ identAt chars e = false)

instance (chars : List Char) (col s e : Nat) : Decidable (SpecWordRange chars col s e) := by
  unfold SpecWordRange
  exact inferInstance

/-! ## Concrete fixtures used by counterexamples and witnesses -/

/-- A fresh service world: shutdown flag clear, context uninitialized,
nothing emitted. -/
def w0 : ServerWorld :=
  { state := { shut_down := false }, ctx := ActionContext.uninit, vfs := [], out := [] }

/-- A world in which a `shutdown` request has already been handled. -/
def wShut : ServerWorld :=
  { state := { shut_down := true }, ctx := ActionContext.uninit, vfs := [], out := [] }

/-- A world with an initialized context. -/
def wInit : ServerWorld :=
  { state := { shut_down := false }, ctx := ActionContext.init "/proj", vfs := [], out := [] }

/-- The wire text of an `exit` notification. -/
def exitMsgText : String := "\x7b\"jsonrpc\":\"2.0\",\"method\":\"exit\"\x7d"

/-- The wire text of a `shutdown` request with id 0. -/
def shutdownMsgText : String := "\x7b\"jsonrpc\":\"2.0\",\"id\":0,\"method\":\"shutdown\"\x7d"

/-- A `shutdown` request whose id is an array. -/
def arrayIdMsgText : String := "\x7b\"id\":[1],\"method\":\"shutdown\"\x7d"

/-- A `shutdown` request whose id is the non-numeric string `abc`. -/
def strIdMsgText : String := "\x7b\"jsonrpc\":\"2.0\",\"id\":\"abc\",\"method\":\"shutdown\"\x7d"

/-- A `textDocument/didOpen` notification with a non-`file` URI. -/
def didOpenGitUriText : String :=
  "\x7b\"jsonrpc\":\"2.0\",\"method\":\"textDocument/didOpen\",\"params\":\x7b\"textDocument\":\x7b\"uri\":\"git://a/b\",\"languageId\":\"rust\",\"version\":1,\"text\":\"fn\"\x7d\x7d\x7d"

/-- A `textDocument/completion` request with a non-`file` URI. -/
def completionGitUriText : String :=
  "\x7b\"jsonrpc\":\"2.0\",\"id\":7,\"method\":\"textDocument/completion\",\"params\":\x7b\"textDocument\":\x7b\"uri\":\"git://a/b\"\x7d,\"position\":\x7b\"line\":0,\"character\":3\x7d\x7d\x7d"

/-- A completion item fixture. -/
def sampleItem : CompletionItem := { label := "x", detail := none }

/-! # Theorems -/

/-! ## List lemmas for the word-boundary locator -/

theorem enum_eq (l : List α) : l.enum = List.enumFrom 0 l := rfl

theorem getD_cons_succ (b : α) (l : List α) (n : Nat) (d : α) :
    (b :: l).getD (n + 1) d = l.getD n d := rfl

theorem getD_cons_zero (b : α) (l : List α) (d : α) : (b :: l).getD 0 d = b := rfl

theorem getD_nil (n : Nat) (d : α) : ([] : List α).getD n d = d := rfl

theorem getD_append_left (l₁ l₂ : List α) (d : α) :
    ∀ n, n < l₁.length → (l₁ ++ l₂).getD n d = l₁.getD n d := by
  induction l₁ with
  | nil => intro n h; exact absurd h (by simp)
  | cons b l IH =>
    intro n h
    cases n with
    | zero => rfl
    | succ n =>
      show (l ++ l₂).getD n d = l.getD n d
      exact IH n (by simpa using Nat.lt_of_succ_lt_succ h)

theorem getD_concat_length (l : List α) (a : α) (d : α) :
    (l ++ [a]).getD l.length d = a := by
  induction l with
  | nil => rfl
  | cons b l IH => exact IH

theorem getD_take (l : List α) (d : α) :
    ∀ col n, n < col → (l.take col).getD n d = l.getD n d := by
  induction l with
  | nil => intro col n _; simp [getD_nil]
  | cons b l IH =>
    intro col n h
    cases col with
    | zero => omega
    | succ col =>
      rw [List.take_succ_cons]
      cases n with
      | zero => rfl
      | succ n =>
        rw [getD_cons_succ, getD_cons_succ]
        exact IH col n (by omega)

theorem getD_drop (l : List α) (d : α) :
    ∀ col n, (l.drop col).getD n d = l.getD (col + n) d := by
  induction l with
  | nil => intro col n; simp [getD_nil]
  | cons b l IH =>
    intro col n
    cases col with
    | zero => simp
    | succ col =>
      rw [List.drop_succ_cons, IH col n]
      have h : col + 1 + n = (col + n) + 1 := by omega
      rw [h, getD_cons_succ]

theorem find?_eq_head?_filter (p : α → Bool) : ∀ l : List α, l.find? p = (l.filter p).head?
  | [] => rfl
  | a :: l => by
    by_cases h : p a
    · rw [List.find?_cons_of_pos _ h, List.filter_cons_of_pos h]
      rfl
    · rw [List.find?_cons_of_neg _ (by simp [h]), List.filter_cons_of_neg (by simp [h])]
      exact find?_eq_head?_filter p l

theorem enumFrom_take (l : List α) :
    ∀ n col, (List.enumFrom n l).take col = List.enumFrom n (l.take col) := by
  induction l with
  | nil => intro n col; simp
  | cons a l IH =>
    intro n col
    cases col with
    | zero => simp
    | succ col =>
      rw [List.enumFrom_cons, List.take_succ_cons, List.take_succ_cons, List.enumFrom_cons,
        IH (n + 1) col]

theorem enumFrom_drop (l : List α) :
    ∀ n col, (List.enumFrom n l).drop col = List.enumFrom (n + col) (l.drop col) := by
  induction l with
  | nil => intro n col; simp
  | cons a l IH =>
    intro n col
    cases col with
    | zero => simp
    | succ col =>
      rw [List.enumFrom_cons, List.drop_succ_cons, List.drop_succ_cons, IH (n + 1) col]
      congr 1
      omega

theorem getLast?_filter_enumFrom_some (p : Nat × Char → Bool) (m : List Char) (k : Nat)
    (jc : Nat × Char) (h : ((List.enumFrom k m).filter p).getLast? = some jc) :
    ∃ t, t < m.length ∧ jc = (k + t, m.getD t ' ') ∧ p jc = true ∧
      ∀ u, t < u → u < m.length → p (k + u, m.getD u ' ') = false := by
  induction m using List.reverseRecOn generalizing jc with
  | nil => simp at h
  | append_singleton m a IH =>
    rw [List.enumFrom_append, List.filter_append] at h
    by_cases hp : p (k + m.length, a)
    · have he : (List.enumFrom (k + m.length) [a]).filter p = [(k + m.length, a)] := by
        simp [hp]
      rw [he, List.getLast?_concat] at h
      injection h with h
      refine ⟨m.length, by simp, ?_, ?_, ?_⟩
      · rw [← h, getD_concat_length]
      · rw [← h]; exact hp
      · intro u hu hu2
        simp at hu2
        omega
    · have he : (List.enumFrom (k + m.length) [a]).filter p = [] := by
        simp [hp]
      rw [he, List.append_nil] at h
      obtain ⟨t, ht, hjc, hpj, hafter⟩ := IH jc h
      refine ⟨t, by simp; omega, ?_, hpj, ?_⟩
      · rw [hjc, getD_append_left _ _ _ t ht]
      · intro u hu hu2
        simp at hu2
        rcases Nat.lt_or_ge u m.length with hlt | hge
        · rw [getD_append_left _ _ _ u hlt]
          exact hafter u hu hlt
        · have : u = m.length := by omega
          rw [this, getD_concat_length]
          simpa using hp

theorem getLast?_filter_enumFrom_none (p : Nat × Char → Bool) (m : List Char) (k : Nat)
    (h : ((List.enumFrom k m).filter p).getLast? = none) :
    ∀ t, t < m.length → p (k + t, m.getD t ' ') = false := by
  induction m using List.reverseRecOn with
  | nil => intro t ht; simp at ht
  | append_singleton m a IH =>
    rw [List.enumFrom_append, List.filter_append] at h
    by_cases hp : p (k + m.length, a)
    · have he : (List.enumFrom (k + m.length) [a]).filter p = [(k + m.length, a)] := by
        simp [hp]
      rw [he, List.getLast?_concat] at h
      exact absurd h (by simp)
    · have he : (List.enumFrom (k + m.length) [a]).filter p = [] := by
        simp [hp]
      rw [he, List.append_nil] at h
      intro t ht
      simp at ht
      rcases Nat.lt_or_ge t m.length with hlt | hge
      · rw [getD_append_left _ _ _ t hlt]
        exact IH h t hlt
      · have : t = m.length := by omega
        rw [this, getD_concat_length]
        simpa using hp

theorem find?_enumFrom_some (p : Nat × Char → Bool) (m : List Char) :
    ∀ (k : Nat) (jc : Nat × Char), (List.enumFrom k m).find? p = some jc →
      ∃ t, t < m.length ∧ jc = (k + t, m.getD t ' ') ∧ p jc = true ∧
        ∀ u, u < t → p (k + u, m.getD u ' ') = false := by
  induction m with
  | nil => intro k jc h; simp at h
  | cons a m IH =>
    intro k jc h
    rw [List.enumFrom_cons] at h
    by_cases hp : p (k, a)
    · rw [List.find?_cons_of_pos _ hp] at h
      injection h with h
      refine ⟨0, by simp, ?_, ?_, ?_⟩
      · rw [← h, getD_cons_zero]
        simp
      · rw [← h]; exact hp
      · intro u hu; omega
    · rw [List.find?_cons_of_neg _ (by simp [hp])] at h
      obtain ⟨t, ht, hjc, hpj, hbefore⟩ := IH (k + 1) jc h
      refine ⟨t + 1, by simpa using Nat.succ_lt_succ ht, ?_, hpj, ?_⟩
      · rw [hjc, getD_cons_succ]
        have : k + 1 + t = k + (t + 1) := by omega
        rw [this]
      · intro u hu
        cases u with
        | zero =>
          rw [getD_cons_zero]
          simpa using hp
        | succ u =>
          rw [getD_cons_succ]
          have h2 := hbefore u (by omega)
          have : k + (u + 1) = k + 1 + u := by omega
          rw [this]
          exact h2

theorem find?_enumFrom_none (p : Nat × Char → Bool) (m : List Char) :
    ∀ k, (List.enumFrom k m).find? p = none →
      ∀ t, t < m.length → p (k + t, m.getD t ' ') = false := by
  induction m with
  | nil => intro k _ t ht; simp at ht
  | cons a m IH =>
    intro k h t ht
    rw [List.enumFrom_cons] at h
    by_cases hp : p (k, a)
    · rw [List.find?_cons_of_pos _ hp] at h
      exact absurd h (by simp)
    · rw [List.find?_cons_of_neg _ (by simp [hp])] at h
      cases t with
      | zero =>
        rw [getD_cons_zero]
        simpa using hp
      | succ t =>
        rw [getD_cons_succ]
        have h2 := IH (k + 1) h t (by simpa using Nat.lt_of_succ_lt_succ ht)
        have : k + (t + 1) = k + 1 + t := by omega
        rw [this]
        exact h2

/-! ## Behaviour of `find_word_start` and `find_word_end` -/

theorem find_word_start_cases (chars : List Char) (col : Nat) :
    (find_word_start chars col = 0 ∧
      ∀ t, t < min col chars.length → identAt chars t = true) ∨
    (∃ t, t < min col chars.length ∧ find_word_start chars col = t + 1 ∧
      identAt chars t = false ∧
      ∀ u, t < u → u < min col chars.length → identAt chars u = true) := by
  have hrw : chars.enum.take col
      = List.enumFrom 0 (chars.take col) := by
    rw [enum_eq, enumFrom_take]
  unfold find_word_start
  rw [hrw]
  have hlen : (chars.take col).length = min col chars.length := by
    rw [List.length_take]
  cases hE : ((List.enumFrom 0 (chars.take col)).filter
      (fun ic => ! is_ident_char ic.2)).getLast? with
  | none =>
    left
    refine ⟨rfl, ?_⟩
    intro t ht
    have h := getLast?_filter_enumFrom_none _ _ _ hE t (by omega)
    simp only [Nat.zero_add] at h
    rw [getD_take _ _ col t (by omega)] at h
    unfold identAt
    simpa using h
  | some jc =>
    right
    obtain ⟨t, ht, hjc, hpj, hafter⟩ := getLast?_filter_enumFrom_some _ _ _ _ hE
    rw [hlen] at ht
    refine ⟨t, ht, ?_, ?_, ?_⟩
    · rw [hjc]
      simp
    · rw [hjc] at hpj
      simp only [Nat.zero_add] at hpj
      rw [getD_take _ _ col t (by omega)] at hpj
      unfold identAt
      simpa using hpj
    · intro u hu hu2
      have h := hafter u hu (by omega)
      simp only [Nat.zero_add] at h
      rw [getD_take _ _ col u (by omega)] at h
      unfold identAt
      simpa using h

theorem find_word_end_cases (chars : List Char) (col : Nat) :
    (find_word_end chars col = col ∧
      ∀ t, t < chars.length - col → identAt chars (col + t) = true) ∨
    (∃ t, t < chars.length - col ∧ find_word_end chars col = col + t ∧
      identAt chars (col + t) = false ∧
      ∀ u, u < t → identAt chars (col + u) = true) := by
  have hrw : chars.enum.drop col = List.enumFrom col (chars.drop col) := by
    rw [enum_eq, enumFrom_drop]
    congr 1
    omega
  unfold find_word_end
  rw [hrw, ← find?_eq_head?_filter]
  have hlen : (chars.drop col).length = chars.length - col := List.length_drop col chars
  cases hE : (List.enumFrom col (chars.drop col)).find?
      (fun ic => ! is_ident_char ic.2) with
  | none =>
    left
    refine ⟨rfl, ?_⟩
    intro t ht
    have h := find?_enumFrom_none _ _ _ hE t (by omega)
    rw [getD_drop] at h
    unfold identAt
    simpa using h
  | some jc =>
    right
    obtain ⟨t, ht, hjc, hpj, hbefore⟩ := find?_enumFrom_some _ _ _ _ hE
    rw [hlen] at ht
    refine ⟨t, ht, ?_, ?_, ?_⟩
    · rw [hjc]
    · rw [hjc] at hpj
      rw [getD_drop] at hpj
      unfold identAt
      simpa using hpj
    · intro u hu
      have h := hbefore u hu
      rw [getD_drop] at h
      unfold identAt
      simpa using h

theorem find_word_start_le (chars : List Char) (col : Nat) :
    find_word_start chars col ≤ col := by
  rcases find_word_start_cases chars col with ⟨h0, _⟩ | ⟨t, ht, hs, _, _⟩
  · omega
  · omega

theorem find_word_end_ge (chars : List Char) (col : Nat) :
    col ≤ find_word_end chars col := by
  rcases find_word_end_cases chars col with ⟨h0, _⟩ | ⟨t, ht, he, _, _⟩
  · omega
  · omega

theorem find_word_end_eq_of_all_ident (chars : List Char) (col : Nat)
    (h : ∀ j, col ≤ j → j < chars.length → identAt chars j = true) :
    find_word_end chars col = col := by
  rcases find_word_end_cases chars col with ⟨h0, _⟩ | ⟨t, ht, he, hident, _⟩
  · exact h0
  · have := h (col + t) (by omega) (by omega)
    rw [this] at hident
    cases hident

/-- Spec section 8 test vectors for the word-boundary locator. -/
theorem find_word_spec_vectors :
    find_word_at_pos "struct Def \x7b" 0 = (0, 6) ∧
    find_word_at_pos "struct Def \x7b" 7 = (7, 10) ∧
    find_word_at_pos "struct Def \x7b" 11 = (11, 11) ∧
    find_word_at_pos "span::Position<T>" 6 = (6, 14) := by
  exact ⟨rfl, rfl, rfl, rfl⟩

/-- C10: `find_word_at_pos` is total — in the source no operation can
panic (`unwrap_or` supplies the fallbacks) and here the function is
structurally total — and for every line and every cursor, including
cursors beyond the line, `start ≤ cursor ≤ end`; when no non-identifier
character exists at or after the cursor the end equals the cursor,
unclamped to the line length. -/
theorem c10_find_word_total (line : String) (col : Nat) :
    (find_word_at_pos line col).1 ≤ col ∧
    col ≤ (find_word_at_pos line col).2 ∧
    ((∀ j, col ≤ j → j < line.toList.length → identAt line.toList j = true) →
      (find_word_at_pos line col).2 = col) := by
  refine ⟨find_word_start_le line.toList col, find_word_end_ge line.toList col, ?_⟩
  intro h
  exact find_word_end_eq_of_all_ident line.toList col h

/-- C10 witness: the bounds evaluated at a cursor beyond the line. -/
theorem c10_find_word_total_witness :
    (find_word_at_pos "ab" 5).1 ≤ 5 ∧
    5 ≤ (find_word_at_pos "ab" 5).2 ∧
    ((∀ j, 5 ≤ j → j < "ab".toList.length → identAt "ab".toList j = true) →
      (find_word_at_pos "ab" 5).2 = 5) :=
  c10_find_word_total "ab" 5

/-- C3 counterexample: on the line `abc` with the cursor at 0 the
maximal identifier run containing the cursor is `[0, 3)`, but the code
returns `(0, 0)` — when the run reaches the end of the line with no
non-identifier character after the cursor, the returned end collapses
to the cursor.  The returned range therefore violates the
specification's word-range requirement. -/
theorem c3_counterexample :
    ¬ SpecWordRange "abc".toList 0
        (find_word_at_pos "abc" 0).1 (find_word_at_pos "abc" 0).2 := by
  decide

/-- C3 (amended): for a cursor within the line, `start` is the start of
the maximal identifier run touching the cursor (all characters between
`start` and the cursor are identifier characters and the character
before `start`, if any, is not); `end` is the first non-identifier
position at or after the cursor when one exists — which makes
`[start, end)` the spec's maximal run — but collapses to the cursor when
the run extends to the end of the line; between two non-identifier
characters the result is the empty range at the cursor. -/
theorem c3_word_range_amended (line : String) (col : Nat)
    (hcol : col ≤ line.toList.length) :
    ((find_word_at_pos line col).1 ≤ col ∧
      (∀ i, (find_word_at_pos line col).1 ≤ i → i < col →
        identAt line.toList i = true) ∧
      ((find_word_at_pos line col).1 = 0 ∨
        identAt line.toList ((find_word_at_pos line col).1 - 1) = false)) ∧
    (∀ j, col ≤ j → j < line.toList.length → identAt line.toList j = false →
      col ≤ (find_word_at_pos line col).2 ∧ (find_word_at_pos line col).2 ≤ j ∧
        identAt line.toList (find_word_at_pos line col).2 = false ∧
        ∀ i, col ≤ i → i < (find_word_at_pos line col).2 →
          identAt line.toList i = true) ∧
    ((∀ j, col ≤ j → j < line.toList.length → identAt line.toList j = true) →
      (find_word_at_pos line col).2 = col) ∧
    (0 < col → col < line.toList.length → identAt line.toList (col - 1) = false →
      identAt line.toList col = false →
      (find_word_at_pos line col).1 = col ∧ (find_word_at_pos line col).2 = col) := by
  set chars := line.toList with hchars
  have hfst : (find_word_at_pos line col).1 = find_word_start chars col := rfl
  have hsnd : (find_word_at_pos line col).2 = find_word_end chars col := rfl
  rw [hfst, hsnd]
  have hmin : min col chars.length = col := by omega
  have hstart : find_word_start chars col ≤ col := find_word_start_le chars col
  refine ⟨⟨hstart, ?_, ?_⟩, ?_, ?_, ?_⟩
  · -- all characters between start and the cursor are identifier characters
    intro i hi hi2
    rcases find_word_start_cases chars col with ⟨h0, hall⟩ | ⟨t, ht, hs, _, hafter⟩
    · exact hall i (by omega)
    · exact hafter i (by omega) (by omega)
  · -- maximality on the left
    rcases find_word_start_cases chars col with ⟨h0, _⟩ | ⟨t, ht, hs, hident, _⟩
    · left; exact h0
    · right
      rw [hs]
      simpa using hident
  · -- when a non-identifier character exists at or after the cursor,
    -- the end is the first one
    intro j hj hj2 hident
    rcases find_word_end_cases chars col with ⟨h0, hall⟩ | ⟨t, ht, he, hide, hbefore⟩
    · exfalso
      have h := hall (j - col) (by omega)
      have hjj : col + (j - col) = j := by omega
      rw [hjj] at h
      rw [h] at hident
      cases hident
    · have hej : find_word_end chars col ≤ j := by
        by_contra hlt
        push_neg at hlt
        rw [he] at hlt
        have h := hbefore (j - col) (by omega)
        have hjj : col + (j - col) = j := by omega
        rw [hjj] at h
        rw [h] at hident
        cases hident
      refine ⟨find_word_end_ge chars col, hej, by rw [he]; exact hide, ?_⟩
      intro i hi hi2
      rw [he] at hi2
      have h := hbefore (i - col) (by omega)
      have hii : col + (i - col) = i := by omega
      rw [hii] at h
      exact h
  · -- no non-identifier character at or after the cursor
    intro h
    exact find_word_end_eq_of_all_ident chars col h
  · -- empty selection between two non-identifier characters
    intro hpos hlt hprev hcur
    constructor
    · rcases find_word_start_cases chars col with ⟨h0, hall⟩ | ⟨t, ht, hs, hident, hafter⟩
      · exfalso
        have h := hall (col - 1) (by omega)
        rw [h] at hprev
        cases hprev
      · have : t = col - 1 := by
          by_contra hne
          have h := hafter (col - 1) (by omega) (by omega)
          rw [h] at hprev
          cases hprev
        omega
    · rcases find_word_end_cases chars col with ⟨h0, _⟩ | ⟨t, ht, he, hide, hbefore⟩
      · exact h0
      · have : t = 0 := by
          by_contra hne
          have h := hbefore 0 (by omega)
          simp at h
          rw [h] at hcur
          cases hcur
        rw [he, this]
        omega

/-- C3 witness: the amended range statement evaluated on `ab c` at
cursor 1 (a run containing the cursor, ended by a space). -/
theorem c3_word_range_amended_witness :
    (find_word_at_pos "ab c" 1).1 ≤ 1 ∧ identAt "ab c".toList 2 = false ∧
    1 ≤ (find_word_at_pos "ab c" 1).2 ∧ (find_word_at_pos "ab c" 1).2 ≤ 2 :=
  have h := c3_word_range_amended "ab c" 1 (by decide)
  have h2 := h.2.1 2 (by decide) (by decide) (by decide)
  ⟨h.1.1, by decide, h2.1, h2.2.1⟩

/-! ## Claims about the dispatch engine -/

/-- C1 counterexample: dispatching `shutdown` twice in a row — first
from a fresh world, then again — produces zero replies, not two: `Ack`
is a zero-sized type, so `Request::dispatch` suppresses the success
reply, and after the first call every further message (the raw text of
a `shutdown` request included) is short-circuited by the shutdown
filter.  The flag is set, but no acknowledgment is ever emitted. -/
theorem c1_counterexample :
    handle_message (some shutdownMsgText) w0 = Step.ok ServerStateChange.Continue wShut ∧
    handle_message (some shutdownMsgText) wShut = Step.ok ServerStateChange.Continue wShut ∧
    wShut.out = [] ∧ wShut.out.length ≠ 2 ∧ wShut.state.shut_down = true :=
  ⟨rfl, rfl, rfl, by decide, rfl⟩

/-- C1 (amended): every dispatched `shutdown` request makes the handler
set the shutdown flag to true and return `Ok(Ack)`, but the engine
emits no reply for it — `Ack` is zero-sized, so `Request::dispatch`
skips the success reply; dispatching it twice still sets the flag and
still produces no output, leaving the world otherwise untouched. -/
theorem c1_shutdown_sets_flag_no_reply (id id2 : Nat) (w : ServerWorld) :
    requestDispatch ShutdownRequest id () w =
      Step.ok (Except.ok ()) { w with state := { shut_down := true } } ∧
    requestDispatch ShutdownRequest id2 () { w with state := { shut_down := true } } =
      Step.ok (Except.ok ()) { w with state := { shut_down := true } } :=
  ⟨rfl, rfl⟩

/-- C2 (code bug): after shutdown the engine compares the raw message
text — not the parsed method — against the string `exit`.  The wire
form of an `exit` notification is a JSON object, never the bare text
`exit`, so after shutdown it is short-circuited like any other message:
the engine continues with no output, no state change and no process
exit, although the same message before shutdown is dispatched and
terminates the process.  The bare text `exit`, the only input that
passes the filter, is not valid JSON and dies as a parse error. -/
theorem c2_exit_notification_filtered :
    parse_message exitMsgText = ParseMessageResult.msg ⟨"exit", none, Json.null⟩ ∧
    handle_message (some exitMsgText) wShut = Step.ok ServerStateChange.Continue wShut ∧
    handle_message (some exitMsgText) w0 = Step.exited 1 w0 ∧
    parse_message "exit" = ParseMessageResult.err JError.parseError :=
  ⟨rfl, rfl, rfl, rfl⟩

/-- C4 counterexample: a request whose id is an array does not surface
as an invalid-request error — the `unwrap` on the id deserialization in
`parse_message` panics, aborting the process before any reply and
before `parse_as_request` runs. -/
theorem c4_counterexample :
    parse_message arrayIdMsgText = ParseMessageResult.panicked ∧
    handle_message (some arrayIdMsgText) w0 = Step.panicked w0 :=
  ⟨rfl, rfl⟩

/-- C4 (amended): an id that is a non-negative 64-bit integer, or a
string parsing as one in base 10, is accepted and passed to the
handler; a string id that does not parse is rejected as
`InvalidRequest` by `parse_as_request` before the handler runs — for a
concrete `shutdown` request with id `abc` the engine emits an
invalid-request failure reply and breaks, with the shutdown flag still
clear (no handler side effects); array and fractional ids, however,
panic during `parse_message` (see the counterexample). -/
theorem c4_id_validation_amended (π ρ : Type) (A : RequestActionModel π ρ) (p : π)
    (m1 m2 m3 : RawMessage) (n nv : Nat) (s2 s3 : String)
    (h1p : A.paramsFromJson m1.params = some p) (h1 : m1.id = some (Id.num n))
    (h2p : A.paramsFromJson m2.params = some p) (h2 : m2.id = some (Id.str s2))
    (h2v : usize_from_str_radix_10 s2 = some nv)
    (h3p : A.paramsFromJson m3.params = some p) (h3 : m3.id = some (Id.str s3))
    (h3v : usize_from_str_radix_10 s3 = none) :
    parse_as_request A m1 = Except.ok (n, p) ∧
    parse_as_request A m2 = Except.ok (nv, p) ∧
    parse_as_request A m3 = Except.error JError.invalidRequest ∧
    handle_message (some strIdMsgText) w0 =
      Step.ok ServerStateChange.Break
        { w0 with out := [OutputMsg.failure (Id.str "abc") JError.invalidRequest] } := by
  refine ⟨?_, ?_, ?_, rfl⟩
  · simp [parse_as_request, h1, h1p]
  · simp [parse_as_request, h2, h2p, h2v]
  · simp [parse_as_request, h3, h3p, h3v]

/-- C4 witness: the three id shapes evaluated on concrete `shutdown`
requests. -/
theorem c4_id_validation_amended_witness :
    parse_as_request ShutdownRequest ⟨"shutdown", some (Id.num 3), Json.null⟩ =
      Except.ok (3, ()) ∧
    parse_as_request ShutdownRequest ⟨"shutdown", some (Id.str "12"), Json.null⟩ =
      Except.ok (12, ()) ∧
    parse_as_request ShutdownRequest ⟨"shutdown", some (Id.str "abc"), Json.null⟩ =
      Except.error JError.invalidRequest :=
  have h := c4_id_validation_amended Unit Unit ShutdownRequest ()
    ⟨"shutdown", some (Id.num 3), Json.null⟩
    ⟨"shutdown", some (Id.str "12"), Json.null⟩
    ⟨"shutdown", some (Id.str "abc"), Json.null⟩
    3 12 "12" "abc" rfl rfl rfl rfl rfl rfl rfl rfl
  ⟨h.1, h.2.1, h.2.2.1⟩

/-- C5 counterexample: the `completionItem/resolve` handler answers a
concrete item with the singleton list `[item]`; on the wire the emitted
result is a one-element JSON array wrapping the item, which is not the
input item unchanged. -/
theorem c5_counterexample :
    ResolveCompletion.handle 5 sampleItem w0 = Step.ok (Except.ok [sampleItem]) w0 ∧
    requestDispatch ResolveCompletion 5 sampleItem w0 =
      Step.ok (Except.ok [sampleItem])
        { w0 with out := [OutputMsg.success 5 (Json.arr [completionItemToJson sampleItem])] } ∧
    Json.arr [completionItemToJson sampleItem] ≠ completionItemToJson sampleItem :=
  ⟨rfl, rfl, fun h => Json.noConfusion
    (show Json.arr [completionItemToJson sampleItem]
        = Json.obj [("label", Json.str "x")] from h)⟩

/-- C5 (amended): `completionItem/resolve` is a pass-through up to
list-wrapping — for every input item the handler returns `Ok([item])`
with the world untouched, and the engine emits exactly one success
reply whose result is the one-element array containing the input item
unchanged. -/
theorem c5_resolve_singleton (id : Nat) (c : CompletionItem) (w : ServerWorld) :
    ResolveCompletion.handle id c w = Step.ok (Except.ok [c]) w ∧
    requestDispatch ResolveCompletion id c w =
      Step.ok (Except.ok [c])
        (emit w (OutputMsg.success id (Json.arr [completionItemToJson c]))) :=
  ⟨rfl, rfl⟩

/-- C6: the `initialize` handler emits its success reply carrying the
advertised capabilities (incremental sync; completion with
`resolveProvider = true` and trigger characters `.` and `:`) strictly
before transitioning the context from Uninitialized to Initialized —
and exactly one reply is emitted: in every outcome of the dispatch,
including the panics of a missing root path or a double initialize that
happen after the reply, the output grows by exactly that one success
reply (`Response = ()` is zero-sized, so `Request::dispatch` adds
nothing). -/
theorem c6_initialize_reply_before_transition (id : Nat) (params : InitializeParams)
    (w : ServerWorld) (root : String)
    (hctx : w.ctx = ActionContext.uninit) (hroot : params.root_path = some root) :
    requestDispatch InitializeRequest id params w =
      Step.ok (Except.ok ())
        { w with
            ctx := ActionContext.init root,
            out := w.out ++ [OutputMsg.success id (initializeResultToJson initializeResultValue)] } ∧
    initializeResultValue.capabilities.text_document_sync =
      some TextDocumentSyncKind.Incremental ∧
    initializeResultValue.capabilities.completion_provider =
      some { resolve_provider := some true, trigger_characters := [".", ":"] } ∧
    (∀ (p2 : InitializeParams) (w2 : ServerWorld) (id2 : Nat),
      ((requestDispatch InitializeRequest id2 p2 w2).world).out =
        w2.out ++ [OutputMsg.success id2 (initializeResultToJson initializeResultValue)]) := by
  refine ⟨?_, rfl, rfl, ?_⟩
  · have h1 : ctx_init w.ctx root = some (ActionContext.init root) := by
      rw [hctx]
      rfl
    simp only [requestDispatch, InitializeRequest, hroot, h1, emit]
    rfl
  · intro p2 w2 id2
    simp only [requestDispatch, InitializeRequest, emit]
    cases hrp : p2.root_path with
    | none => rfl
    | some root2 =>
      cases hci : ctx_init w2.ctx root2 with
      | none => simp [hci, Step.world]
      | some c2 => simp [hci, Step.world]

/-- C6 witness: the initialize dispatch evaluated on a concrete request
against a fresh world. -/
theorem c6_initialize_reply_before_transition_witness :
    requestDispatch InitializeRequest 0 ⟨some "/proj", none⟩ w0 =
      Step.ok (Except.ok ())
        { w0 with
            ctx := ActionContext.init "/proj",
            out := [OutputMsg.success 0 (initializeResultToJson initializeResultValue)] } :=
  (c6_initialize_reply_before_transition 0 ⟨some "/proj", none⟩ w0 "/proj" rfl rfl).1

set_option maxRecDepth 16384 in
/-- C7: when a request handler returns a failure the engine emits no
reply of any kind — the dispatch ends in exactly the world the handler
left — and when a notification handler fails the failure is swallowed
by the dispatch arm, which reports success so the loop continues; on
the concrete instances (a completion request and a didOpen notification
with a non-`file` URI, whose handlers fail) the full message step
continues with zero output and an unchanged world. -/
theorem c7_handler_failure_semantics (π ρ π2 : Type) (A : RequestActionModel π ρ)
    (B : NotificationActionModel π2) (id : Nat) (p : π) (p2 : π2)
    (w w' u u' : ServerWorld) (msg : RawMessage)
    (hreq : A.handle id p w = Step.ok (Except.error ()) w')
    (hp : B.paramsFromJson msg.params = some p2)
    (hnot : B.handle p2 u = Step.ok (Except.error ()) u') :
    requestDispatch A id p w = Step.ok (Except.error ()) w' ∧
    dispatchNotificationIn B msg u = Step.ok (Except.ok ()) u' ∧
    handle_message (some completionGitUriText) wInit =
      Step.ok ServerStateChange.Continue wInit ∧
    handle_message (some didOpenGitUriText) wInit =
      Step.ok ServerStateChange.Continue wInit := by
  refine ⟨?_, ?_, rfl, rfl⟩
  · simp only [requestDispatch, hreq]
  · simp only [dispatchNotificationIn, parse_as_notification, hp, notificationDispatch, hnot]

/-- C7 witness: the failure semantics evaluated on the completion and
didOpen handlers with a `git` URI in an initialized world. -/
theorem c7_handler_failure_semantics_witness :
    requestDispatch Completion 7 ⟨⟨⟨"git", "//a/b"⟩⟩, ⟨0, 3⟩⟩ wInit =
      Step.ok (Except.error ()) wInit ∧
    dispatchNotificationIn DidOpen
      ⟨"textDocument/didOpen", none,
        Json.obj [("textDocument", Json.obj
          [("uri", Json.str "git://a/b"), ("languageId", Json.str "rust"),
            ("version", Json.num 1 false), ("text", Json.str "fn")])]⟩ wInit =
      Step.ok (Except.ok ()) wInit :=
  have h := c7_handler_failure_semantics _ _ _ Completion DidOpen 7
    ⟨⟨⟨"git", "//a/b"⟩⟩, ⟨0, 3⟩⟩ ⟨⟨⟨"git", "//a/b"⟩, "rust", 1, "fn"⟩⟩
    wInit wInit wInit wInit
    ⟨"textDocument/didOpen", none,
      Json.obj [("textDocument", Json.obj
        [("uri", Json.str "git://a/b"), ("languageId", Json.str "rust"),
          ("version", Json.num 1 false), ("text", Json.str "fn")])]⟩
    rfl rfl rfl
  ⟨h.1, h.2.1⟩

/-- C8: an input text that is not valid JSON, reaching the parser (the
shutdown filter is clear), makes the engine emit exactly one parse-error
failure reply with a null id and break out of the loop, so any queued
messages after it are never processed. -/
theorem c8_parse_error_terminates (s : String) (rest : List String) (w : ServerWorld)
    (hjson : parseJson s = none) (hsd : w.state.shut_down = false) :
    run (s :: rest) w =
      RunResult.finished
        { w with out := w.out ++ [OutputMsg.failure Id.null JError.parseError] } := by
  have hpm : parse_message s = ParseMessageResult.err JError.parseError := by
    unfold parse_message
    rw [hjson]
  show (match handle_message (some s) w with
    | Step.ok ServerStateChange.Continue w => run rest w
    | Step.ok ServerStateChange.Break w => RunResult.finished w
    | Step.panicked w => RunResult.panicked w
    | Step.exited c w => RunResult.exited c w) = _
  have hh : handle_message (some s) w =
      Step.ok ServerStateChange.Break
        { w with out := w.out ++ [OutputMsg.failure Id.null JError.parseError] } := by
    simp [handle_message, hsd, hpm, emit]
  rw [hh]

/-- C8 witness: a malformed first message with a queued second message
evaluated from a fresh world. -/
theorem c8_parse_error_terminates_witness :
    run ["(", shutdownMsgText] w0 =
      RunResult.finished
        { w0 with out := [OutputMsg.failure Id.null JError.parseError] } :=
  c8_parse_error_terminates "(" [shutdownMsgText] w0 rfl rfl

/-! ## Context preservation (claim C9) -/

theorem requestDispatch_ctx (A : RequestActionModel π ρ)
    (hA : ∀ id p w, ((A.handle id p w).world).ctx = w.ctx)
    (id : Nat) (p : π) (w : ServerWorld) :
    ((requestDispatch A id p w).world).ctx = w.ctx := by
  have h := hA id p w
  unfold requestDispatch
  cases hh : A.handle id p w with
  | panicked w2 => rw [hh] at h; exact h
  | exited c w2 => rw [hh] at h; exact h
  | ok r w2 =>
    rw [hh] at h
    cases r with
    | error e => exact h
    | ok rr =>
      by_cases hz : A.responseIsZeroSized
      · simp only [Step.world, hz, if_true]
        exact h
      · simp only [Step.world, hz, if_false, emit]
        exact h

theorem dispatchRequestIn_ctx (A : RequestActionModel π ρ)
    (hA : ∀ id p w, ((A.handle id p w).world).ctx = w.ctx)
    (msg : RawMessage) (w : ServerWorld) :
    ((dispatchRequestIn A msg w).world).ctx = w.ctx := by
  unfold dispatchRequestIn
  cases hpr : parse_as_request A msg with
  | error e => rfl
  | ok ip =>
    obtain ⟨id, p⟩ := ip
    dsimp only
    have h := requestDispatch_ctx A hA id p w
    cases hrd : requestDispatch A id p w with
    | panicked w2 => rw [hrd] at h; exact h
    | exited c w2 => rw [hrd] at h; exact h
    | ok r w2 => rw [hrd] at h; exact h

theorem dispatchNotificationIn_ctx (A : NotificationActionModel π)
    (hA : ∀ p w, ((A.handle p w).world).ctx = w.ctx)
    (msg : RawMessage) (w : ServerWorld) :
    ((dispatchNotificationIn A msg w).world).ctx = w.ctx := by
  unfold dispatchNotificationIn
  cases hpr : parse_as_notification A msg with
  | error e => rfl
  | ok p =>
    dsimp only
    have h := hA p w
    unfold notificationDispatch
    cases hh : A.handle p w with
    | panicked w2 => rw [hh] at h; exact h
    | exited c w2 => rw [hh] at h; exact h
    | ok r w2 => rw [hh] at h; exact h

theorem exit_handle_ctx (p : Unit) (w : ServerWorld) :
    ((ExitNotification.handle p w).world).ctx = w.ctx := rfl

theorem initialized_handle_ctx (p : Unit) (w : ServerWorld) :
    ((Initialized.handle p w).world).ctx = w.ctx := rfl

theorem didOpen_handle_ctx (p : DidOpenTextDocumentParams) (w : ServerWorld) :
    ((DidOpen.handle p w).world).ctx = w.ctx := by
  simp only [DidOpen]
  cases ctx_inited w.ctx with
  | none => rfl
  | some r =>
    cases parse_file_path p.text_document.uri with
    | error e => rfl
    | ok fp => rfl

theorem didChange_handle_ctx (p : DidChangeTextDocumentParams) (w : ServerWorld) :
    ((DidChange.handle p w).world).ctx = w.ctx := by
  simp only [DidChange]
  cases ctx_inited w.ctx with
  | none => rfl
  | some r =>
    cases parse_file_path p.text_document.uri with
    | error e => rfl
    | ok fp => rfl

theorem cancel_handle_ctx (p : CancelParams) (w : ServerWorld) :
    ((Cancel.handle p w).world).ctx = w.ctx := rfl

theorem didSave_handle_ctx (p : DidSaveTextDocumentParams) (w : ServerWorld) :
    ((DidSave.handle p w).world).ctx = w.ctx := by
  simp only [DidSave]
  cases ctx_inited w.ctx with
  | none => rfl
  | some r =>
    cases parse_file_path p.text_document.uri with
    | error e => rfl
    | ok fp => rfl

theorem didChangeWatchedFiles_handle_ctx (p : DidChangeWatchedFilesParams)
    (w : ServerWorld) :
    ((DidChangeWatchedFiles.handle p w).world).ctx = w.ctx := rfl

theorem shutdown_handle_ctx (id : Nat) (p : Unit) (w : ServerWorld) :
    ((ShutdownRequest.handle id p w).world).ctx = w.ctx := rfl

theorem completion_handle_ctx (id : Nat) (p : TextDocumentPositionParams)
    (w : ServerWorld) :
    ((Completion.handle id p w).world).ctx = w.ctx := by
  simp only [Completion]
  cases ctx_inited w.ctx with
  | none => rfl
  | some r =>
    cases parse_file_path p.text_document.uri with
    | error e => rfl
    | ok fp => rfl

theorem resolveCompletion_handle_ctx (id : Nat) (p : CompletionItem)
    (w : ServerWorld) :
    ((ResolveCompletion.handle id p w).world).ctx = w.ctx := rfl

set_option maxHeartbeats 1000000 in
/-- C9: the context transitions Uninitialized → Initialized exactly
once — `ctx_init` succeeds from `Uninit` and panics (no recoverable
error) on an already-initialized context; `ctx_inited` panics while
uninitialized; an operation requiring the initialized variant (the
completion handler) panics on an uninitialized context; and dispatching
any message whose method is not `initialize` leaves the
initialized-or-not state of the context untouched, so only a successful
`initialize` request performs the transition. -/
theorem c9_context_transition_once (root root2 : String) (id : Nat)
    (p : TextDocumentPositionParams) (w : ServerWorld) (msg : RawMessage)
    (hctx : w.ctx = ActionContext.uninit) (hmeth : msg.method ≠ "initialize") :
    ctx_init ActionContext.uninit root = some (ActionContext.init root) ∧
    ctx_init (ActionContext.init root) root2 = none ∧
    ctx_inited ActionContext.uninit = none ∧
    ctx_inited (ActionContext.init root) = some root ∧
    Completion.handle id p w = Step.panicked w ∧
    ((dispatch_message msg w).world).ctx = w.ctx := by
  refine ⟨rfl, rfl, rfl, rfl, ?_, ?_⟩
  · simp only [Completion, hctx, ctx_inited]
  · unfold dispatch_message
    simp only [show ExitNotification.METHOD = "exit" from rfl,
      show Initialized.METHOD = "initialized" from rfl,
      show DidOpen.METHOD = "textDocument/didOpen" from rfl,
      show DidChange.METHOD = "textDocument/didChange" from rfl,
      show Cancel.METHOD = "$/cancelRequest" from rfl,
      show DidSave.METHOD = "textDocument/didSave" from rfl,
      show DidChangeWatchedFiles.METHOD = "workspace/didChangeWatchedFiles" from rfl,
      show ShutdownRequest.METHOD = "shutdown" from rfl,
      show InitializeRequest.METHOD = "initialize" from rfl,
      show Completion.METHOD = "textDocument/completion" from rfl,
      show ResolveCompletion.METHOD = "completionItem/resolve" from rfl]
    split_ifs with h1 h2 h3 h4 h5 h6 h7 h8 h9 h10 h11
    · exact dispatchNotificationIn_ctx ExitNotification exit_handle_ctx msg w
    · exact dispatchNotificationIn_ctx Initialized initialized_handle_ctx msg w
    · exact dispatchNotificationIn_ctx DidOpen didOpen_handle_ctx msg w
    · exact dispatchNotificationIn_ctx DidChange didChange_handle_ctx msg w
    · exact dispatchNotificationIn_ctx Cancel cancel_handle_ctx msg w
    · exact dispatchNotificationIn_ctx DidSave didSave_handle_ctx msg w
    · exact dispatchNotificationIn_ctx DidChangeWatchedFiles
        didChangeWatchedFiles_handle_ctx msg w
    · exact dispatchRequestIn_ctx ShutdownRequest shutdown_handle_ctx msg w
    · exact absurd (by simpa using h9) hmeth
    · exact dispatchRequestIn_ctx Completion completion_handle_ctx msg w
    · exact dispatchRequestIn_ctx ResolveCompletion resolveCompletion_handle_ctx msg w
    · rfl

/-- C9 witness: the transition facts and a dispatched `shutdown`
request evaluated on a fresh world. -/
theorem c9_context_transition_once_witness :
    ctx_init ActionContext.uninit "/a" = some (ActionContext.init "/a") ∧
    ctx_init (ActionContext.init "/a") "/b" = none ∧
    Completion.handle 1 ⟨⟨⟨"file", "//f.rs"⟩⟩, ⟨0, 0⟩⟩ w0 = Step.panicked w0 ∧
    ((dispatch_message ⟨"shutdown", some (Id.num 1), Json.null⟩ w0).world).ctx = w0.ctx :=
  have h := c9_context_transition_once "/a" "/b" 1 ⟨⟨⟨"file", "//f.rs"⟩⟩, ⟨0, 0⟩⟩ w0
    ⟨"shutdown", some (Id.num 1), Json.null⟩ rfl (by decide)
  ⟨h.1, h.2.1, h.2.2.2.2.1, h.2.2.2.2.2⟩

end Akkadia
